import Mathlib

/-!
Shallow embedding of the format-detection and tag-facade core of
`src/mutagen/__init__.py` (mutagen 1.6): the `File(filename, options)`
dispatcher and the `FileType` dict-like wrapper, together with theorems about
the spec's claims on them.
-/

namespace Mutagen

/-- A byte of file content. -/
abbrev Byte := Nat

/-- The open file object `File` creates with `file(filename, "rb")` and passes
to every candidate's `score` method.  Only its contents matter to a pure
score function; the open/closed bookkeeping is tracked by the event trace. -/
structure FileObj where
  contents : List Byte

/-- The header buffer `fileobj.read(128)`: at most the first 128 bytes. -/
def readHeader (contents : List Byte) : List Byte :=
  contents.take 128

/-- A registered format candidate: one entry of the `options` list of `File`
(a concrete `FileType` subclass).  `score` embeds the class method
`Kind.score(filename, fileobj, header)`.  `cmpId` models the runtime identity
of the class object: Python 2's `list.sort` compares the `(score, Kind)`
tuples produced by `zip(results, options)` elementwise, and two class objects
with no custom ordering are compared by `default_3way_compare`, i.e. by their
addresses — an arbitrary but fixed injective key unrelated to the position of
the class in `options`. -/
structure Candidate where
  cmpId : Nat
  score : String → FileObj → List Byte → Int

/-- Python 2 tuple comparison on the `(score, Kind)` pairs that
`zip(results, options)` builds: lexicographic on the score, then on the
runtime identity of the class object. -/
def pairLe (a b : Int × Candidate) : Prop :=
  a.1 < b.1 ∨ (a.1 = b.1 ∧ a.2.cmpId ≤ b.2.cmpId)

instance : DecidableRel pairLe := fun a b => by
  unfold pairLe
  infer_instance

instance : IsTotal (Int × Candidate) pairLe := by
  constructor
  intro a b
  unfold pairLe
  rcases lt_trichotomy a.1 b.1 with h | h | h
  · exact Or.inl (Or.inl h)
  · rcases Nat.le_total a.2.cmpId b.2.cmpId with hc | hc
    · exact Or.inl (Or.inr ⟨h, hc⟩)
    · exact Or.inr (Or.inr ⟨h.symm, hc⟩)
  · exact Or.inr (Or.inl h)

instance : IsTrans (Int × Candidate) pairLe := by
  constructor
  intro a b c hab hbc
  unfold pairLe at hab hbc ⊢
  rcases hab with h1 | ⟨he1, hc1⟩ <;> rcases hbc with h2 | ⟨he2, hc2⟩
  · exact Or.inl (lt_trans h1 h2)
  · exact Or.inl (he2 ▸ h1)
  · exact Or.inl (he1 ▸ h2)
  · exact Or.inr ⟨he1.trans he2, le_trans hc1 hc2⟩

/-- The I/O events `File` performs, in order. -/
inductive Ev
  | openF
  | read (n : Nat)
  | scoreEv (i : Nat)
  | closeF
deriving DecidableEq

/-- Embedding of `File(filename, options)`.  The `options is None` default
list imports the concrete formats, which live outside this file, so the
candidate list is taken as an explicit argument.  The first component of the
result is the chosen candidate: `some Kind` stands for `return Kind(filename)`
(the winning candidate's constructor is invoked on the path) and `none` for
`return None`.  The second component is the ordered trace of I/O events:
`file(filename, "rb")`, `fileobj.read(128)`, the score computation of each
`options[i]` (performed inside the `try` block, before the `finally` runs),
and `fileobj.close()`. -/
def File (filename : String) (contents : List Byte) (options : List Candidate) :
    Option Candidate × List Ev :=
  if options.isEmpty then (none, [])
  else
    let fileobj : FileObj := ⟨contents⟩
    let header := readHeader contents
    let results := options.map fun Kind => Kind.score filename fileobj header
    let events := Ev.openF :: Ev.read 128 ::
      ((List.range options.length).map Ev.scoreEv ++ [Ev.closeF])
    let pairs := results.zip options
    match (pairs.insertionSort pairLe).getLast? with
    | some (score, Kind) => (if 0 < score then some Kind else none, events)
    | none => (none, events)

/-- The score a candidate computes inside `File`: its `score` method applied
to the path, the (open) file object and the header buffer. -/
def scoreOf (filename : String) (contents : List Byte) (c : Candidate) : Int :=
  c.score filename ⟨contents⟩ (readHeader contents)

theorem map_zip_self {α β : Type} (f : α → β) :
    ∀ l : List α, (l.map f).zip l = l.map fun a => (f a, a)
  | [] => rfl
  | a :: t => by simp [map_zip_self f t]

theorem sorted_rel_getLast {α : Type} {r : α → α → Prop} [IsTotal α r] :
    ∀ {l : List α} (hl : l ≠ []), l.Sorted r → ∀ {x : α}, x ∈ l → r x (l.getLast hl)
  | [], hl, _, _, _ => absurd rfl hl
  | [a], _, _, x, hx => by
      rw [List.mem_singleton.mp hx]
      rcases total_of r a a with h | h <;> simpa using h
  | a :: b :: t, _, hs, x, hx => by
      rw [List.getLast_cons (List.cons_ne_nil b t)]
      rcases List.mem_cons.mp hx with rfl | hx
      · exact List.rel_of_sorted_cons hs _
          (List.getLast_mem (List.cons_ne_nil b t))
      · exact sorted_rel_getLast (List.cons_ne_nil b t) hs.of_cons hx

/-- Characterisation of `File` on a nonempty candidate list: the winner is a
registered candidate whose `(score, class identity)` pair is greatest under
the tuple comparison, and the result is its construction exactly when its
score is positive. -/
theorem File_winner (fn : String) (cs : List Byte) (opts : List Candidate)
    (h : opts ≠ []) :
    ∃ w : Candidate, w ∈ opts ∧
      (∀ c ∈ opts, pairLe (scoreOf fn cs c, c) (scoreOf fn cs w, w)) ∧
      (File fn cs opts).1 = if 0 < scoreOf fn cs w then some w else none := by
  have hpairs : ((opts.map fun k => k.score fn ⟨cs⟩ (readHeader cs)).zip opts)
      = opts.map fun k => (scoreOf fn cs k, k) :=
    map_zip_self _ opts
  have hps : opts.map (fun k => (scoreOf fn cs k, k)) ≠ [] := by
    simpa using h
  have hsne : (opts.map (fun k => (scoreOf fn cs k, k))).insertionSort pairLe ≠ [] := by
    intro hcon
    exact hps (List.eq_nil_of_length_eq_zero
      (by rw [← List.length_insertionSort pairLe, hcon, List.length_nil]))
  have hlastq := List.getLast?_eq_getLast _ hsne
  obtain ⟨k, hk, hkw⟩ := List.mem_map.mp
    ((List.perm_insertionSort pairLe _).subset (List.getLast_mem hsne))
  refine ⟨k, hk, ?_, ?_⟩
  · intro c hc
    have hmem : (scoreOf fn cs c, c)
        ∈ (opts.map (fun k => (scoreOf fn cs k, k))).insertionSort pairLe :=
      (List.mem_insertionSort pairLe).mpr (List.mem_map_of_mem _ hc)
    have := sorted_rel_getLast hsne (List.sorted_insertionSort pairLe _) hmem
    rwa [← hkw] at this
  · have hempty : opts.isEmpty = false := by
      cases opts with
      | nil => exact absurd rfl h
      | cons a t => rfl
    rw [File, hempty]
    simp only [Bool.false_eq_true, if_false, hpairs]
    rw [hlastq, ← hkw]

/-- Evaluating `File` on an empty candidate list. -/
theorem File_nil (fn : String) (cs : List Byte) : File fn cs [] = (none, []) :=
  rfl

/-- The first component of a `pairLe`-smaller pair is a smaller score. -/
theorem pairLe_score_le {a b : Int × Candidate} (h : pairLe a b) : a.1 ≤ b.1 := by
  rcases h with h | ⟨h, _⟩
  · exact le_of_lt h
  · exact le_of_eq h

/-- The event trace of `File` on a nonempty candidate list: open, read of 128
bytes, one score computation per candidate in registration order, close. -/
theorem File_trace (fn : String) (cs : List Byte) (opts : List Candidate)
    (h : opts ≠ []) :
    (File fn cs opts).2 = Ev.openF :: Ev.read 128 ::
      ((List.range opts.length).map Ev.scoreEv ++ [Ev.closeF]) := by
  have hempty : opts.isEmpty = false := by
    cases opts with
    | nil => exact absurd rfl h
    | cons a t => rfl
  rw [File, hempty]
  simp only [Bool.false_eq_true, if_false]
  split <;> rfl

/-- A concrete candidate: registered first in the counterexample list, scores
1 on every input, and its class object happens to have the greater runtime
identity. -/
def candA : Candidate := ⟨1, fun _ _ _ => 1⟩

/-- A concrete candidate: registered second, also scores 1 on every input,
and its class object happens to have the smaller runtime identity. -/
def candB : Candidate := ⟨0, fun _ _ _ => 1⟩

/-- C1 counterexample: `candA` is registered before `candB` and both score the
maximum (1), yet `File` resolves to `candA`, the earlier-registered candidate,
because the sorted pairs are `(score, Kind)` tuples and the tied classes are
compared by their runtime identity, which here orders `candA` last. -/
theorem File_tiebreak_registration_cex :
    (File "song.mp3" [] [candA, candB]).1 = some candA ∧ candA ≠ candB := by
  constructor
  · rfl
  · intro hEq
    have := congrArg Candidate.cmpId hEq
    simp [candA, candB] at this

/-- C1 amended: when several candidates share the maximum score, the winner is
the candidate whose `(score, class-identity)` pair is lexicographically
greatest — the tied classes are ordered by the arbitrary runtime identity of
the class objects, not by registration position, so the later-registered
candidate does not in general win. -/
theorem File_tiebreak_class_identity (fn : String) (cs : List Byte)
    (opts : List Candidate) (c : Candidate) (hc : c ∈ opts)
    (hpos : 0 < scoreOf fn cs c)
    (hmax : ∀ c' ∈ opts, c' ≠ c →
      scoreOf fn cs c' < scoreOf fn cs c ∨
        (scoreOf fn cs c' = scoreOf fn cs c ∧ c'.cmpId < c.cmpId)) :
    (File fn cs opts).1 = some c := by
  have hne : opts ≠ [] := by
    rintro rfl
    cases hc
  obtain ⟨w, hw, hmaxw, hres⟩ := File_winner fn cs opts hne
  have hwc : w = c := by
    by_contra hneq
    have h1 := hmax w hw hneq
    have h2 := hmaxw c hc
    unfold pairLe at h2
    rcases h1 with h1 | ⟨he1, hlt1⟩ <;> rcases h2 with h2 | ⟨he2, hle2⟩
    · exact absurd h1 (not_lt.mpr h2.le)
    · exact absurd h1 (not_lt.mpr he2.le)
    · exact absurd h2 (not_lt.mpr he1.le)
    · exact absurd hlt1 (not_lt.mpr hle2)
  subst hwc
  rw [hres, if_pos hpos]

theorem File_tiebreak_class_identity_witness :
    (File "song.mp3" [] [candB, candA]).1 = some candA :=
  File_tiebreak_class_identity "song.mp3" [] [candB, candA] candA
    (by simp) (by decide)
    (by
      rintro c' hc' hne
      rcases List.mem_cons.mp hc' with rfl | h'
      · exact Or.inr ⟨rfl, by decide⟩
      · exact absurd (List.mem_singleton.mp h') hne)

/-- C2: `File` selects a candidate of maximum score; with every score 0 the
result is `None`; a single candidate with any positive score wins; any
winner is a registered candidate with positive, maximal score; and on any
candidate set containing a positively scoring candidate (so the maximum
score is positive) `File` does return an instance, built by a registered
candidate of maximal (hence positive) score. -/
theorem File_max_score_selection :
    (∀ fn cs opts, (∀ c ∈ opts, scoreOf fn cs c = 0) → (File fn cs opts).1 = none)
    ∧ (∀ fn cs c, 0 < scoreOf fn cs c → (File fn cs [c]).1 = some c)
    ∧ (∀ fn cs opts k, (File fn cs opts).1 = some k →
        k ∈ opts ∧ 0 < scoreOf fn cs k ∧
          ∀ c ∈ opts, scoreOf fn cs c ≤ scoreOf fn cs k)
    ∧ (∀ fn cs opts c, c ∈ opts → 0 < scoreOf fn cs c →
        ∃ k, k ∈ opts ∧ 0 < scoreOf fn cs k
          ∧ (∀ c' ∈ opts, scoreOf fn cs c' ≤ scoreOf fn cs k)
          ∧ (File fn cs opts).1 = some k) := by
  refine ⟨?_, ?_, ?_, ?_⟩
  · intro fn cs opts hz
    rcases eq_or_ne opts [] with rfl | hne
    · rfl
    · obtain ⟨w, hw, _, hres⟩ := File_winner fn cs opts hne
      rw [hres, hz w hw]
      rfl
  · intro fn cs c hpos
    obtain ⟨w, hw, _, hres⟩ := File_winner fn cs [c] (List.cons_ne_nil c [])
    obtain rfl : w = c := List.mem_singleton.mp hw
    rw [hres, if_pos hpos]
  · intro fn cs opts k hk
    have hne : opts ≠ [] := by
      rintro rfl
      rw [File_nil] at hk
      cases hk
    obtain ⟨w, hw, hmax, hres⟩ := File_winner fn cs opts hne
    rw [hres] at hk
    by_cases hpos : 0 < scoreOf fn cs w
    · rw [if_pos hpos] at hk
      obtain rfl : w = k := Option.some_injective _ hk
      exact ⟨hw, hpos, fun c hc => pairLe_score_le (hmax c hc)⟩
    · rw [if_neg hpos] at hk
      cases hk
  · intro fn cs opts c hc hpos
    have hne : opts ≠ [] := by
      rintro rfl
      cases hc
    obtain ⟨w, hw, hmax, hres⟩ := File_winner fn cs opts hne
    have hwpos : 0 < scoreOf fn cs w :=
      lt_of_lt_of_le hpos (pairLe_score_le (hmax c hc))
    exact ⟨w, hw, hwpos, fun c' hc' => pairLe_score_le (hmax c' hc'),
      by rw [hres, if_pos hwpos]⟩

theorem File_max_score_selection_witness :
    (File "song.mp3" [] [candA]).1 = some candA :=
  File_max_score_selection.2.1 "song.mp3" [] candA (by decide)

/-- C3 counterexample: with one registered candidate the event trace of
`File` is open, read, score, close — the close event does not precede the
score event, so the stream is still open while the score is computed (the
open `fileobj` is in fact an argument of `Kind.score`). -/
theorem File_close_before_scoring_cex :
    (File "song.mp3" [] [candA]).2
        = [Ev.openF, Ev.read 128, Ev.scoreEv 0, Ev.closeF]
    ∧ ¬ (File "song.mp3" [] [candA]).2.indexOf Ev.closeF
          < (File "song.mp3" [] [candA]).2.indexOf (Ev.scoreEv 0) := by
  constructor
  · rfl
  · decide

/-- C3 amended: `File` reads at most the first 128 bytes (the header buffer is
a length-≤128 prefix of the file), every candidate's score is computed after
the single read, and the stream is closed only after all scores are computed:
the close event is the last event and every score event strictly precedes
it. -/
theorem File_scores_before_close (fn : String) (cs : List Byte)
    (opts : List Candidate) (h : opts ≠ []) :
    (readHeader cs).length ≤ 128
    ∧ (∃ rest, cs = readHeader cs ++ rest)
    ∧ (File fn cs opts).2.head? = some Ev.openF
    ∧ (File fn cs opts).2.getLast? = some Ev.closeF
    ∧ ∀ i < opts.length, Ev.scoreEv i ∈ (File fn cs opts).2.dropLast := by
  have ht := File_trace fn cs opts h
  refine ⟨?_, ?_, ?_, ?_, ?_⟩
  · simp [readHeader]
  · exact ⟨cs.drop 128, (List.take_append_drop 128 cs).symm⟩
  · rw [ht]
    rfl
  · rw [ht, ← List.cons_append, ← List.cons_append]
    exact List.getLast?_concat _
  · intro i hi
    rw [ht, ← List.cons_append, ← List.cons_append, List.dropLast_concat]
    exact List.mem_cons_of_mem _ (List.mem_cons_of_mem _
      (List.mem_map_of_mem Ev.scoreEv (List.mem_range.mpr hi)))

theorem File_scores_before_close_witness :
    (File "song.mp3" [] [candA]).2.getLast? = some Ev.closeF :=
  (File_scores_before_close "song.mp3" [] [candA] (List.cons_ne_nil _ _)).2.2.2.1

/-- C6: on an empty candidate list `File` returns the unresolved `None`
sentinel and performs no I/O at all (in particular it does not raise). -/
theorem File_no_candidates_unresolved (fn : String) (cs : List Byte) :
    (File fn cs []).1 = none ∧ (File fn cs []).2 = [] :=
  ⟨rfl, rfl⟩

/-- The Python exceptions the `FileType` facade can raise. -/
inductive PyExc
  | keyError (key : String)
  | valueError (msg : String)
  | attributeError (msg : String)
deriving DecidableEq

/-- Stream information: the core only uses its `pprint` method. -/
structure StreamInfo where
  pprint : String

/-- A tag container (a `Metadata`-like object owned by a `FileType`).
`entries` is the key→value mapping in insertion order; `pprintOut` is `none`
when the object exposes no `pprint` attribute (so that accessing
`tags.pprint` raises `AttributeError`) and `some s` when `tags.pprint()`
returns `s`. -/
structure Tags where
  entries : List (String × String)
  pprintOut : Option String

/-- Dict assignment `tags[key] = value`: replacing the value in place when
the key is present and appending otherwise. -/
def Tags.setValue (t : Tags) (key value : String) : Tags :=
  { t with entries :=
      if t.entries.any (fun e => e.1 == key) then
        t.entries.map (fun e => if e.1 == key then (key, value) else e)
      else t.entries ++ [(key, value)] }

/-- Embedding of `FileType`.  `info` and `tags` start as `None` (class
attributes).  `filename` is the attribute that a format-specific `load`
(outside this file) stores; `none` models the attribute being absent, as on
an object built by the deprecated no-filename constructor, in which case
reading `self.filename` raises `AttributeError`. -/
structure FileType where
  filename : Option String
  info : Option StreamInfo
  tags : Option Tags

/-- Modelled from the spec: `add_tags` is format-specific (each concrete
`FileType` subclass defines it, outside this file); per the spec it creates
an empty, format-appropriate tag container and stores it in `tags`. -/
def FileType.add_tags (f : FileType) : FileType :=
  { f with tags := some ⟨[], some ""⟩ }

/-- Embedding of `FileType.__getitem__`: `KeyError` when `tags` is `None`, else the dict
lookup `self.tags[key]` (which itself raises `KeyError` on an absent key). -/
def FileType.getitem (f : FileType) (key : String) : Except PyExc String :=
  match f.tags with
  | none => .error (.keyError key)
  | some t =>
    match t.entries.lookup key with
    | some v => .ok v
    | none => .error (.keyError key)

/-- Embedding of `FileType.__setitem__`: when `tags` is `None` first call `add_tags()`,
then perform `self.tags[key] = value`. -/
def FileType.setitem (f : FileType) (key value : String) : FileType :=
  let f' := if f.tags.isNone then f.add_tags else f
  match f'.tags with
  | some t => { f' with tags := some (t.setValue key value) }
  | none => f'

/-- Embedding of `FileType.__delitem__`: `KeyError` when `tags` is `None`, else the dict
deletion `del self.tags[key]` (which raises `KeyError` on an absent key). -/
def FileType.delitem (f : FileType) (key : String) : Except PyExc FileType :=
  match f.tags with
  | none => .error (.keyError key)
  | some t =>
    if t.entries.any (fun e => e.1 == key) then
      let t' : Tags := { t with entries := t.entries.filter (fun e => !(e.1 == key)) }
      .ok { f with tags := some t' }
    else .error (.keyError key)

/-- Embedding of `FileType.keys`: the empty list when `tags` is `None`, else
`self.tags.keys()`. -/
def FileType.keys (f : FileType) : List String :=
  match f.tags with
  | none => []
  | some t => t.entries.map Prod.fst

/-- The outcome of a successful `FileType.save`: the call returns
`self.tags.save(filename)`, i.e. it delegates the actual write (the only
filesystem-touching step) to the tag container, aimed at `target`. -/
inductive SaveResult
  | delegated (target : String)
deriving DecidableEq

/-- Embedding of `FileType.save(filename=None)`.  The source first resolves the target —
`self.filename` when no argument is given (an `AttributeError` if the
attribute was never set), the argument itself otherwise (with a deprecation
warning) — and only then checks `tags`: a `ValueError` (\"no tags in file\")
when `tags` is `None`, the delegation `self.tags.save(filename)` otherwise.
An `.error` result means `tags.save` was never invoked, so the filesystem was
not touched. -/
def FileType.save (f : FileType) (filename : Option String) :
    Except PyExc SaveResult :=
  match filename with
  | none =>
    match f.filename with
    | none => .error (.attributeError "filename")
    | some fn =>
      match f.tags with
      | some _ => .ok (.delegated fn)
      | none => .error (.valueError "no tags in file")
  | some fn =>
    match f.tags with
    | some _ => .ok (.delegated fn)
    | none => .error (.valueError "no tags in file")

/-- Embedding of `FileType.pprint`: `stream = self.info.pprint()` (an `AttributeError`
when `info` is `None`), then `self.tags.pprint()` inside a
`try`/`except AttributeError` that falls back to `stream` alone, and
otherwise `stream + ((tags and "\n" + tags) or "")` — an empty tag summary
is falsy, so nothing is appended for it. -/
def FileType.pprint (f : FileType) : Except PyExc String :=
  match f.info with
  | none => .error (.attributeError "pprint")
  | some i =>
    match f.tags with
    | none => .ok i.pprint
    | some t =>
      match t.pprintOut with
      | none => .ok i.pprint
      | some tg => .ok (i.pprint ++ if tg = "" then "" else "\n" ++ tg)

/-- What `FileType.__init__(filename=None)` does: the warnings it emits, the
`self.load(filename, ...)` calls it makes (`load` is `NotImplementedError` in
the base class and overridden outside this file, so only the fact of the call
is modelled), and the attribute state the bare object has. -/
structure InitResult where
  warnings : List String
  loadCalls : List String
  obj : FileType

/-- Embedding of `FileType.__init__`: with `filename=None` it only emits a non-fatal
`DeprecationWarning`; otherwise it calls `self.load(filename)`. -/
def FileType.init (filename : Option String) : InitResult :=
  match filename with
  | none => ⟨["FileType constructor requires a filename"], [], ⟨none, none, none⟩⟩
  | some fn => ⟨[], [fn], ⟨none, none, none⟩⟩

/-- C4: for every `FileType` with `tags = None` whose save target is
resolvable (an explicit filename argument is passed, or the `filename`
attribute is set — which per the spec's data model holds of every loaded
`MediaFile`), `save` raises `ValueError` ("no tags in file") and never
reaches the delegation to `tags.save`, so it does not touch the filesystem;
with a non-null `tags` it delegates to `tags.save` on the resolved target. -/
theorem save_requires_tags :
    (∀ (f : FileType) (arg : Option String), f.tags = none →
        (arg.isSome ∨ f.filename.isSome) →
        f.save arg = .error (.valueError "no tags in file"))
    ∧ (∀ (f : FileType) (t : Tags) (arg : Option String) (target : String),
        f.tags = some t →
        (arg = some target ∨ (arg = none ∧ f.filename = some target)) →
        f.save arg = .ok (.delegated target)) := by
  constructor
  · intro f arg htags hres
    rcases arg with _ | fn
    · rcases hres with h | h
      · simp at h
      · rcases Option.isSome_iff_exists.mp h with ⟨fn, hfn⟩
        simp [FileType.save, hfn, htags]
    · simp [FileType.save, htags]
  · intro f t arg target htags hres
    rcases hres with rfl | ⟨rfl, hfn⟩
    · simp [FileType.save, htags]
    · simp [FileType.save, hfn, htags]

theorem save_requires_tags_witness :
    FileType.save ⟨some "a.mp3", none, none⟩ none
      = .error (.valueError "no tags in file") :=
  save_requires_tags.1 ⟨some "a.mp3", none, none⟩ none rfl (Or.inr rfl)

/-- C5: setting a key on a `FileType` with `tags = None` first creates an
empty tag container via `add_tags`, so afterwards `tags` is non-null and
looking the key up returns the value just written. -/
theorem setitem_creates_tags (f : FileType) (key value : String)
    (h : f.tags = none) :
    (f.setitem key value).tags ≠ none
    ∧ (f.setitem key value).getitem key = .ok value := by
  have hset : f.setitem key value
      = { f with tags := some ⟨[(key, value)], some ""⟩ } := by
    simp [FileType.setitem, h, FileType.add_tags, Tags.setValue]
  rw [hset]
  exact ⟨by simp, by simp [FileType.getitem]⟩

theorem setitem_creates_tags_witness :
    (FileType.setitem ⟨none, none, none⟩ "artist" "me").tags ≠ none
    ∧ (FileType.setitem ⟨none, none, none⟩ "artist" "me").getitem "artist"
        = .ok "me" :=
  setitem_creates_tags ⟨none, none, none⟩ "artist" "me" rfl

/-- C7: on a `FileType` with `tags = None`, both `__getitem__` and
`__delitem__` raise `KeyError` carrying the requested key, for every key. -/
theorem no_tags_keyError (f : FileType) (key : String) (h : f.tags = none) :
    f.getitem key = .error (.keyError key)
    ∧ f.delitem key = .error (.keyError key) := by
  constructor <;> simp [FileType.getitem, FileType.delitem, h]

theorem no_tags_keyError_witness :
    FileType.getitem ⟨none, none, none⟩ "artist" = .error (.keyError "artist")
    ∧ FileType.delitem ⟨none, none, none⟩ "artist"
        = .error (.keyError "artist") :=
  no_tags_keyError ⟨none, none, none⟩ "artist" rfl

/-- C8: `keys` is a total function — on a `FileType` with `tags = None` it
returns the empty list (it cannot raise), and otherwise it returns the tag
container's keys. -/
theorem keys_no_tags_empty (f : FileType) :
    (f.tags = none → f.keys = [])
    ∧ ∀ t, f.tags = some t → f.keys = t.entries.map Prod.fst := by
  constructor
  · intro h
    simp [FileType.keys, h]
  · intro t h
    simp [FileType.keys, h]

theorem keys_no_tags_empty_witness :
    FileType.keys ⟨none, none, none⟩ = [] :=
  (keys_no_tags_empty ⟨none, none, none⟩).1 rfl

/-- C9 counterexample: with stream summary "S" and tag summary "T", `pprint`
returns "S\nT" — the tag summary starts on the very next line — and not the
blank-line-separated "S\n\nT" that the claim describes. -/
theorem pprint_blank_line_cex :
    FileType.pprint ⟨none, some ⟨"S"⟩, some ⟨[], some "T"⟩⟩ = .ok "S\nT"
    ∧ "S\nT" ≠ "S" ++ "\n\n" ++ "T" := by
  constructor
  · rfl
  · decide

/-- C9 amended: `pprint` with stream info present returns the stream summary
followed — only when a tag summary exists and is non-empty — by a single
newline and the tag summary (no blank line in between); when tags are
absent, expose no pprint capability, or produce an empty summary, it returns
the stream summary alone and does not fail. -/
theorem pprint_stream_then_tags (f : FileType) (i : StreamInfo)
    (hi : f.info = some i) :
    ((f.tags = none ∨ (∃ t, f.tags = some t ∧ t.pprintOut = none)
        ∨ (∃ t, f.tags = some t ∧ t.pprintOut = some "")) →
      f.pprint = .ok i.pprint)
    ∧ (∀ t s, f.tags = some t → t.pprintOut = some s → s ≠ "" →
        f.pprint = .ok (i.pprint ++ ("\n" ++ s))) := by
  constructor
  · rintro (h | ⟨t, ht, hp⟩ | ⟨t, ht, hp⟩) <;>
      simp_all [FileType.pprint]
  · intro t s ht hs hne
    simp [FileType.pprint, hi, ht, hs, hne]

theorem pprint_stream_then_tags_witness :
    FileType.pprint ⟨none, some ⟨"S"⟩, none⟩ = .ok "S" :=
  (pprint_stream_then_tags ⟨none, some ⟨"S"⟩, none⟩ ⟨"S"⟩ rfl).1 (Or.inl rfl)

/-- C10: constructing a `FileType` with `filename=None` makes no `load` call
(hence performs no I/O), emits exactly the one non-fatal
`DeprecationWarning`, and leaves both `info` and `tags` equal to `None`. -/
theorem init_without_filename :
    (FileType.init none).loadCalls = []
    ∧ (FileType.init none).warnings
        = ["FileType constructor requires a filename"]
    ∧ (FileType.init none).obj.info = none
    ∧ (FileType.init none).obj.tags = none :=
  ⟨rfl, rfl, rfl, rfl⟩

end Mutagen
